import Mathlib

/-
Shallow embedding of the sysBBox order-fragmentation components.

Sources:
  * src/unnamed/part_000, first section  : OrderFragmentForm, strict variant (FormA)
  * src/unnamed/part_000, second section : OrderFragmentForm, partial-allowed variant (FormB)
  * src/client/components/OrderSplitDialog.tsx : OrderSplitDialog

Modelling conventions:
  * JS numbers that hold integral quantities are modelled as Int
    (Nat for sequence numbers and clock readings), monetary values as Rat,
    so arithmetic is exact.
  * Dates are modelled as integer millisecond timestamps; date-fns addDays
    adds one civil day, modelled as adding dayMs.
  * TS optional / possibly-undefined fields become Option; JS truthiness of
    numbers (0 and undefined are falsy) and strings (the empty string and
    undefined are falsy) is modelled by the jsOr* helpers.
  * Date.now() readings are passed in explicitly; where the source reads
    the clock inside a loop, the embedding takes a function from the loop
    index to the reading.
  * JS template literals render numbers in decimal; natToString below is a
    decimal renderer for Nat, intToString for Int.
-/

namespace SysBBox

/-- JS `a || b` for an optional string `a`: the empty string and undefined
are falsy. -/
def jsOrS : Option String → String → String
  | some s, d => if s = "" then d else s
  | none, d => d

/-- JS `a || b` for an optional integer `a`: 0 and undefined are falsy. -/
def jsOrI : Option Int → Int → Int
  | some n, d => if n = 0 then d else n
  | none, d => d

/-- JS `a || b` for an optional natural `a`: 0 and undefined are falsy. -/
def jsOrNat : Option Nat → Nat → Nat
  | some n, d => if n = 0 then d else n
  | none, d => d

/-- JS truthiness of an optional integer. -/
def jsTruthyI : Option Int → Bool
  | some n => n != 0
  | none => false

/-- Decimal digits of a natural number, most significant first.
Fuel-structured so that the kernel can evaluate it. -/
def natDigitsAux : Nat → Nat → List Nat
  | 0, _ => []
  | fuel + 1, n => if n < 10 then [n] else natDigitsAux fuel (n / 10) ++ [n % 10]

/-- Decimal digits of a natural number, most significant first. -/
def natDigits (n : Nat) : List Nat := natDigitsAux (n + 1) n

/-- The ASCII character of a decimal digit. -/
def digitChar (d : Nat) : Char := Char.ofNat (48 + d)

/-- Decimal rendering of a natural number, as produced by a JS template
literal for a nonnegative integral number. -/
def natToString (n : Nat) : String := ⟨(natDigits n).map digitChar⟩

/-- Decimal rendering of an integer, as produced by a JS template literal
for an integral number. -/
def intToString (n : Int) : String :=
  if n < 0 then "-" ++ natToString n.natAbs else natToString n.toNat

/-- The numeric value of a most-significant-first digit list; used to show
that natDigits is injective. -/
def digitsVal (ds : List Nat) : Nat := ds.foldl (fun a d => 10 * a + d) 0

/-- The fragment-id template of both OrderFragmentForm variants
(lines 189-191 and 683-685): `(orderId)-frag-(key)-(Date.now())` where
`key` is the fragment number (falling back to position + 1). -/
def genId (oid : String) (k : Nat) (t : Nat) : String :=
  oid ++ "-frag-" ++ natToString k ++ "-" ++ natToString t

/-- JS `Array.prototype.map` with the element index: `l.map((a, i) => f i a)`,
with `n` the index of the first element. -/
def mapWithIndex (f : Nat → α → β) : Nat → List α → List β
  | _, [] => []
  | i, a :: as => f i a :: mapWithIndex f (i + 1) as

/-- JS `Array.prototype.filter` with the element index:
`l.filter((a, i) => p i a)`, with `n` the index of the first element. -/
def filterWithIndex (p : Nat → α → Bool) : Nat → List α → List α
  | _, [] => []
  | i, a :: as =>
    if p i a then a :: filterWithIndex p (i + 1) as else filterWithIndex p (i + 1) as

/-- Milliseconds in one civil day. -/
def dayMs : Int := 86400000

/-- An order line item (OrderProduct from the data hook). -/
structure OrderProduct where
  id : String
  product_id : Option String := none
  product_name : String := ""
  model : String := ""
  size : String := ""
  color : String := ""
  fabric : String := ""
  quantity : Int := 0
  unit_price : ℚ := 0
  total_price : ℚ := 0
deriving DecidableEq, Repr

/-- A persisted fragment (OrderFragmentType from types/order).
`productName`, `size`, `color` and the operator/timestamp fields are only
written by the second form variant and stay `none` in the first. -/
structure OrderFragment where
  id : String
  orderId : String
  productId : String
  productName : Option String := none
  size : Option String := none
  color : Option String := none
  fragmentNumber : Nat
  quantity : Int
  scheduledDate : Int
  status : String
  progress : Int
  value : ℚ
  assignedOperator : Option String := none
  startedAt : Option Int := none
  completedAt : Option Int := none
deriving DecidableEq, Repr

/-- A fragment draft being edited in form state (Partial of
OrderFragmentType).  The render-only `_tempId` key of the second variant
is stripped before save and does not affect any observable behaviour, so
it is not modelled. -/
structure Draft where
  id : Option String := none
  fragmentNumber : Option Nat := none
  quantity : Option Int := none
  scheduledDate : Option Int := none
  status : Option String := none
  progress : Option Int := none
  productId : Option String := none
  assignedOperator : Option String := none
  startedAt : Option Int := none
  completedAt : Option Int := none
deriving DecidableEq, Repr

/-- A fragment as produced by OrderSplitDialog (snake_case shape).
The `assigned_operator`, `started_at` and `completed_at` fields are set to
undefined by the dialog and are omitted. -/
structure SplitFragment where
  id : String
  order_id : String
  product_id : String
  product_name : String
  size : String
  color : String
  fragment_number : Nat
  quantity : Int
  scheduled_date : Nat
  status : String
  progress : Int
  value : ℚ
deriving DecidableEq, Repr

/-- The order record as seen by OrderSplitDialog. -/
structure Order where
  id : String
  order_number : String := ""
  customer_name : String := ""
  products : List OrderProduct := []
  fragments : List SplitFragment := []
deriving DecidableEq, Repr

/-- Result of a form save attempt: either a destructive toast
(title, description) with no callback invocation, or the fragment list
handed to the onSave callback.  The source handler mutates no component
state, so no state component appears here. -/
inductive SaveOutcome where
  | error (title : String) (msg : String)
  | saved (fragments : List OrderFragment)
deriving DecidableEq, Repr

/-- Result of a dialog split attempt: either an alert message or the
fragment list handed to the onSplit callback. -/
inductive SplitOutcome where
  | error (msg : String)
  | saved (fragments : List SplitFragment)
deriving DecidableEq, Repr

namespace OrderFragmentForm

/- Definitions in this namespace appear verbatim in BOTH OrderFragmentForm
variants of src/unnamed/part_000. -/

/-- `products.find((p) => p.id === selectedProductId)`. -/
def selectedProductOf (products : List OrderProduct) (pid : String) : Option OrderProduct :=
  products.find? (fun p => p.id == pid)

/-- `selectedProduct?.quantity || 0`. -/
def totalQuantityOf (products : List OrderProduct) (pid : String) : Int :=
  jsOrI ((selectedProductOf products pid).map (·.quantity)) 0

/-- `selectedProduct?.total_price || 0`. -/
def totalValueOf (products : List OrderProduct) (pid : String) : ℚ :=
  match selectedProductOf products pid with
  | some p => p.total_price
  | none => 0

/-- `calculateFragmentValue` (lines 143-146 and 624-627 of
src/unnamed/part_000): 0 when the product total quantity is 0, otherwise
`(quantity / productTotalQuantity) * productTotalValue`. -/
def calculateFragmentValue (T : Int) (V : ℚ) (q : Int) : ℚ :=
  if T = 0 then 0 else ((q : ℚ) / (T : ℚ)) * V

/-- `getTotalFragmentQuantity`: `fragments.reduce((sum, f) => sum + (f.quantity || 0), 0)`. -/
def getTotalFragmentQuantity (drafts : List Draft) : Int :=
  drafts.foldl (fun sum d => sum + jsOrI d.quantity 0) 0

/-- `getTotalFragmentValue`: `fragments.reduce((sum, f) => sum + calculateFragmentValue(f.quantity || 0), 0)`. -/
def getTotalFragmentValue (drafts : List Draft) (T : Int) (V : ℚ) : ℚ :=
  drafts.foldl (fun sum d => sum + calculateFragmentValue T V (jsOrI d.quantity 0)) 0

/-- The per-draft conjunct of both isValid variants:
`f.quantity && f.quantity > 0 && f.scheduledDate` (a Date object is always
truthy). -/
def draftComplete (d : Draft) : Bool :=
  jsTruthyI d.quantity && decide (0 < d.quantity.getD 0) && d.scheduledDate.isSome

/-- `removeFragment` (lines 124-128 and 605-609):
drops the draft at `index` via `prev.filter((_, i) => i !== index)`, but
only when more than one draft remains. -/
def removeFragment (drafts : List Draft) (index : Nat) : List Draft :=
  if 1 < drafts.length then filterWithIndex (fun i _ => i != index) 0 drafts else drafts

/-- `updateFragment(index, "quantity", v)`: replaces the quantity field of
the draft at `index`.  (`updateFragment` takes the field name as a string;
only its two call sites, quantity and scheduledDate, are modelled.) -/
def updateFragmentQuantity (drafts : List Draft) (index : Nat) (q : Int) : List Draft :=
  mapWithIndex (fun i d => if i = index then { d with quantity := some q } else d) 0 drafts

/-- `updateFragmentDate(index, date)`: replaces the scheduledDate field of
the draft at `index` (and closes the calendar popover, which is render-only
state). -/
def updateFragmentDate (drafts : List Draft) (index : Nat) (dte : Int) : List Draft :=
  mapWithIndex (fun i d => if i = index then { d with scheduledDate := some dte } else d) 0 drafts

/-- The id keys of a draft list: each drafts fragment number, falling back
to its position plus one, as used inside the generated id template. -/
def keysOf (drafts : List Draft) : List Nat :=
  mapWithIndex (fun i d => jsOrNat d.fragmentNumber (i + 1)) 0 drafts

/-- The spec-side formulation of the next scheduled date used by both
addFragment variants before any clamping: one day after the last drafts
scheduled date, or the current instant when there is no dated last draft. -/
def specNextDate (now : Int) (drafts : List Draft) : Int :=
  match (drafts.getLast?).bind (fun d => d.scheduledDate) with
  | some dte => dte + dayMs
  | none => now

end OrderFragmentForm

namespace FormA

/- FormA: the first OrderFragmentForm in src/unnamed/part_000
(lines 1-443), the strict-policy variant. -/

open OrderFragmentForm

/-- The `{ ...fragment, scheduledDate: new Date(fragment.scheduledDate) }`
normalization applied to persisted fragments when seeding form state
(every field of the fragment is spread into the draft). -/
def draftOfFragment (f : OrderFragment) : Draft :=
  { id := some f.id
    fragmentNumber := some f.fragmentNumber
    quantity := some f.quantity
    scheduledDate := some f.scheduledDate
    status := some f.status
    progress := some f.progress
    productId := some f.productId
    assignedOperator := f.assignedOperator
    startedAt := f.startedAt
    completedAt := f.completedAt }

/-- `Math.ceil(T / 4)` on an integral T (JS real division then ceiling). -/
def jsCeilDiv4 (T : Int) : Int := -(Int.ediv (-T) 4)

/-- Seeding of the draft list for the selected product: the useState
initializer (lines 57-76) and the body of the useEffect that re-runs when
the selected product changes (lines 79-104).  Existing fragments of the
product are reused; otherwise one default draft with quantity
`Math.max(1, Math.ceil(productTotalQuantity / 4))` and today's date. -/
def initDrafts (initialFragments : List OrderFragment) (pid : String) (T : Int)
    (now : Int) : List Draft :=
  let productFragments := initialFragments.filter (fun f => f.productId == pid)
  if 0 < productFragments.length then
    productFragments.map draftOfFragment
  else
    [{ fragmentNumber := some 1
       quantity := some (max 1 (jsCeilDiv4 T))
       scheduledDate := some now
       status := some "pending"
       progress := some 0
       productId := some pid }]

/-- `addFragment` (lines 106-122): appends one draft numbered
`prev.length + 1` with quantity 1, dated one day after the last draft's
date (today when there is no dated last draft).  No clamping. -/
def addFragment (now : Int) (drafts : List Draft) : List Draft :=
  let nextDate :=
    match drafts.getLast? with
    | some lastFragment =>
      match lastFragment.scheduledDate with
      | some dte => dte + dayMs
      | none => now
    | none => now
  drafts ++
    [{ fragmentNumber := some (drafts.length + 1)
       quantity := some 1
       scheduledDate := some nextDate
       status := some "pending"
       progress := some 0 }]

/-- `isValid` (lines 162-167): total draft quantity must equal the product
total quantity exactly and every draft must have a positive quantity and a
scheduled date. -/
def isValid (drafts : List Draft) (T : Int) : Bool :=
  (getTotalFragmentQuantity drafts == T) && drafts.all draftComplete

/-- The validation toast description of lines 171-176. -/
def errMsg (drafts : List Draft) (T : Int) : String :=
  "A quantidade total fragmentada (" ++ intToString (getTotalFragmentQuantity drafts) ++
    ") deve ser igual à quantidade total do produto selecionado (" ++ intToString T ++
    ") e todos os campos devem ser preenchidos."

/-- The per-draft finalization of lines 187-201: generated id when none
exists, order/product stamping, field defaulting, and value recomputation.
`clock i` is the `Date.now()` reading taken while fragment `i` is mapped. -/
def finalize (oid pid : String) (T : Int) (V : ℚ) (now : Int) (clock : Nat → Nat)
    (i : Nat) (d : Draft) : OrderFragment :=
  { id := jsOrS d.id (genId oid (jsOrNat d.fragmentNumber (i + 1)) (clock i))
    orderId := oid
    productId := pid
    fragmentNumber := jsOrNat d.fragmentNumber (i + 1)
    quantity := jsOrI d.quantity 0
    scheduledDate := d.scheduledDate.getD now
    status := jsOrS d.status "pending"
    progress := jsOrI d.progress 0
    value := calculateFragmentValue T V (jsOrI d.quantity 0) }

/-- `handleSave` (lines 169-206): abort with a toast when invalid;
otherwise hand `[...otherFragments, ...currentProductFragments]` to the
onSave callback, where otherFragments are the initial fragments of other
products and currentProductFragments the finalized drafts. -/
def handleSave (oid : String) (products : List OrderProduct) (pid : String)
    (initialFragments : List OrderFragment) (drafts : List Draft)
    (now : Int) (clock : Nat → Nat) : SaveOutcome :=
  let T := totalQuantityOf products pid
  let V := totalValueOf products pid
  if ¬ (isValid drafts T) then
    .error "Erro de Validação" (errMsg drafts T)
  else
    let otherFragments := initialFragments.filter (fun f => f.productId != pid)
    let currentProductFragments := mapWithIndex (finalize oid pid T V now clock) 0 drafts
    .saved (otherFragments ++ currentProductFragments)

/-- The user-event alphabet of one FormA editing session. -/
inductive Event where
  | selectProduct (pid : String)
  | add
  | setQuantity (i : Nat) (q : Int)
  | setDate (i : Nat) (dte : Int)
  | remove (i : Nat)
deriving DecidableEq, Repr

/-- The component state relevant to the draft-manager claims:
the selected product and the draft list. -/
structure FormState where
  selectedProductId : String
  fragments : List Draft
deriving DecidableEq, Repr

/-- Initial component state: `products[0]?.id || ""` is selected and the
draft list is seeded for it. -/
def initState (products : List OrderProduct) (initialFragments : List OrderFragment)
    (now : Int) : FormState :=
  let pid := jsOrS (products.head?.map (·.id)) ""
  { selectedProductId := pid
    fragments := initDrafts initialFragments pid (totalQuantityOf products pid) now }

/-- One user event.  Selecting a product re-seeds the draft list from
`initialFragments` for the new product (the useEffect of lines 79-104);
the other events are the draft-list operations. -/
def step (products : List OrderProduct) (initialFragments : List OrderFragment)
    (now : Int) (st : FormState) (e : Event) : FormState :=
  match e with
  | .selectProduct pid =>
    { selectedProductId := pid
      fragments := initDrafts initialFragments pid (totalQuantityOf products pid) now }
  | .add => { st with fragments := addFragment now st.fragments }
  | .setQuantity i q => { st with fragments := updateFragmentQuantity st.fragments i q }
  | .setDate i dte => { st with fragments := updateFragmentDate st.fragments i dte }
  | .remove i => { st with fragments := removeFragment st.fragments i }

/-- A whole editing session: the initial state followed by a list of user
events. -/
def runSession (products : List OrderProduct) (initialFragments : List OrderFragment)
    (now : Int) (events : List Event) : FormState :=
  events.foldl (step products initialFragments now) (initState products initialFragments now)

end FormA

namespace FormB

/- FormB: the second OrderFragmentForm in src/unnamed/part_000
(lines 444-1040), the partial-allowed variant. -/

open OrderFragmentForm

/-- `addFragment` (lines 576-603): as in FormA, but the date is clamped so
that it does not precede the start of today (`now.setHours(0,0,0,0)`,
passed here as `todayStart`). -/
def addFragment (pid : String) (now todayStart : Int) (drafts : List Draft) : List Draft :=
  let nextDate0 :=
    match drafts.getLast? with
    | some lastFragment =>
      match lastFragment.scheduledDate with
      | some dte => dte + dayMs
      | none => now
    | none => now
  let nextDate := if nextDate0 < todayStart then todayStart else nextDate0
  drafts ++
    [{ fragmentNumber := some (drafts.length + 1)
       quantity := some 1
       scheduledDate := some nextDate
       status := some "pending"
       progress := some 0
       productId := some pid }]

/-- `isValid` (lines 643-649): the total draft quantity must be positive
and at most the product total quantity, and every draft must have a
positive quantity and a scheduled date. -/
def isValid (drafts : List Draft) (T : Int) : Bool :=
  decide (0 < getTotalFragmentQuantity drafts) &&
    decide (getTotalFragmentQuantity drafts ≤ T) &&
    drafts.all draftComplete

/-- The error-message selection of lines 653-662: zero total, excess
total, or missing required fields. -/
def errMsg (drafts : List Draft) (T : Int) : String :=
  let totalFragmented := getTotalFragmentQuantity drafts
  if totalFragmented = 0 then
    "Você deve fragmentar pelo menos 1 unidade."
  else if T < totalFragmented then
    "A quantidade total fragmentada (" ++ intToString totalFragmented ++
      ") não pode ser maior que a quantidade total do produto (" ++ intToString T ++ ")."
  else
    "Todos os campos obrigatórios devem ser preenchidos."

/-- The per-draft finalization of lines 679-702; compared with FormA it
additionally stamps the product name, size and color of the selected
product and passes the operator/timestamp fields through. -/
def finalize (oid pid : String) (prod : Option OrderProduct) (T : Int) (V : ℚ)
    (now : Int) (clock : Nat → Nat) (i : Nat) (d : Draft) : OrderFragment :=
  { id := jsOrS d.id (genId oid (jsOrNat d.fragmentNumber (i + 1)) (clock i))
    orderId := oid
    productId := pid
    productName := some (jsOrS (prod.map (·.product_name)) "")
    size := some (jsOrS (prod.map (·.size)) "")
    color := some (jsOrS (prod.map (·.color)) "")
    fragmentNumber := jsOrNat d.fragmentNumber (i + 1)
    quantity := jsOrI d.quantity 0
    scheduledDate := d.scheduledDate.getD now
    status := jsOrS d.status "pending"
    progress := jsOrI d.progress 0
    value := calculateFragmentValue T V (jsOrI d.quantity 0)
    assignedOperator := d.assignedOperator
    startedAt := d.startedAt
    completedAt := d.completedAt }

/-- `handleSave` (lines 651-707): abort with the condition-specific toast
when invalid; otherwise hand `[...otherFragments, ...currentProductFragments]`
to the onSave callback. -/
def handleSave (oid : String) (products : List OrderProduct) (pid : String)
    (initialFragments : List OrderFragment) (drafts : List Draft)
    (now : Int) (clock : Nat → Nat) : SaveOutcome :=
  let T := totalQuantityOf products pid
  let V := totalValueOf products pid
  if ¬ (isValid drafts T) then
    .error "Erro de Validação" (errMsg drafts T)
  else
    let otherFragments := initialFragments.filter (fun f => f.productId != pid)
    let currentProductFragments :=
      mapWithIndex (finalize oid pid (selectedProductOf products pid) T V now clock) 0 drafts
    .saved (otherFragments ++ currentProductFragments)

end FormB

namespace OrderSplitDialog

/- OrderSplitDialog (src/client/components/OrderSplitDialog.tsx). -/

/-- `quantities[product.id] || 0` on the quantities record, modelled as an
association list with unique keys. -/
def lookupQ (qs : List (String × Int)) (pid : String) : Int :=
  jsOrI ((qs.find? (fun p => p.1 == pid)).map (·.2)) 0

/-- The id template of line 70: `(order.id)-frag-(Date.now())-(index)`. -/
def splitId (oid : String) (t : Nat) (i : Nat) : String :=
  oid ++ "-frag-" ++ natToString t ++ "-" ++ natToString i

/-- `handleSplit` (lines 42-98): alert and abort when no positive quantity
was entered or some quantity exceeds its product quantity; otherwise build
one fragment per positively-quantified product and hand the list to the
onSplit callback, then clear the quantities.  The result pairs the outcome
with the quantities state after the handler (unchanged on abort, cleared
on success).  `clock i` is the `Date.now()` reading taken while fragment
`i` is mapped. -/
def handleSplit (order : Order) (qs : List (String × Int)) (clock : Nat → Nat) :
    SplitOutcome × List (String × Int) :=
  let hasQuantity := qs.any (fun p => decide (0 < p.2))
  if ¬ hasQuantity then
    (.error "Por favor, especifique a quantidade para pelo menos um produto", qs)
  else
    let hasExcess := order.products.any (fun p => decide (p.quantity < lookupQ qs p.id))
    if hasExcess then
      (.error "A quantidade especificada não pode ser maior que a quantidade do produto", qs)
    else
      let fragments :=
        mapWithIndex
          (fun i p => show SplitFragment from
            { id := splitId order.id (clock i) i
              order_id := order.id
              product_id := jsOrS p.product_id p.id
              product_name := p.product_name
              size := p.size
              color := p.color
              fragment_number := order.fragments.length + i + 1
              quantity := lookupQ qs p.id
              scheduled_date := clock i
              status := "pending"
              progress := 0
              value := (p.total_price / (p.quantity : ℚ)) * ((lookupQ qs p.id : Int) : ℚ) })
          0 (order.products.filter (fun p => decide (0 < lookupQ qs p.id)))
      (.saved fragments, [])

end OrderSplitDialog

/-! ### Auxiliary lemmas -/

open OrderFragmentForm

theorem jsOrI_zero (o : Option Int) : jsOrI o 0 = o.getD 0 := by
  cases o with
  | none => rfl
  | some n =>
    by_cases h : n = 0 <;> simp [jsOrI, h]

theorem foldl_add_eq_sum {M : Type} [AddCommMonoid M] (f : α → M) (l : List α) :
    ∀ a : M, l.foldl (fun s x => s + f x) a = a + (l.map f).sum := by
  induction l with
  | nil => intro a; simp
  | cons x xs ih => intro a; simp [ih, add_assoc]

theorem getTotalFragmentQuantity_eq_sum (drafts : List Draft) :
    getTotalFragmentQuantity drafts = (drafts.map (fun d => d.quantity.getD 0)).sum := by
  unfold getTotalFragmentQuantity
  rw [foldl_add_eq_sum (fun d => jsOrI d.quantity 0) drafts 0, zero_add]
  rw [show (fun d : Draft => jsOrI d.quantity 0) = (fun d : Draft => d.quantity.getD 0) from
    funext fun d => jsOrI_zero d.quantity]

theorem calculateFragmentValue_eq (T : Int) (V : ℚ) (q : Int) :
    calculateFragmentValue T V q = (q : ℚ) / (T : ℚ) * V := by
  unfold calculateFragmentValue
  split
  · rename_i h
    simp [h]
  · rfl

theorem calculateFragmentValue_zero (T : Int) (V : ℚ) :
    calculateFragmentValue T V 0 = 0 := by
  simp [calculateFragmentValue_eq]

theorem calculateFragmentValue_add (T : Int) (V : ℚ) (a b : Int) :
    calculateFragmentValue T V (a + b) =
      calculateFragmentValue T V a + calculateFragmentValue T V b := by
  simp only [calculateFragmentValue_eq]
  push_cast
  ring

theorem sum_calculateFragmentValue (T : Int) (V : ℚ) (l : List Int) :
    (l.map (calculateFragmentValue T V)).sum = calculateFragmentValue T V l.sum := by
  induction l with
  | nil => simp [calculateFragmentValue_zero]
  | cons x xs ih => simp [ih, calculateFragmentValue_add]

theorem getTotalFragmentValue_eq (drafts : List Draft) (T : Int) (V : ℚ) :
    getTotalFragmentValue drafts T V =
      calculateFragmentValue T V (getTotalFragmentQuantity drafts) := by
  unfold getTotalFragmentValue
  rw [foldl_add_eq_sum (fun d => calculateFragmentValue T V (jsOrI d.quantity 0)) drafts 0,
    zero_add, getTotalFragmentQuantity_eq_sum]
  rw [show (fun d : Draft => calculateFragmentValue T V (jsOrI d.quantity 0)) =
      (calculateFragmentValue T V) ∘ (fun d : Draft => d.quantity.getD 0) from
    funext fun d => by rw [Function.comp_apply, jsOrI_zero]]
  rw [← List.map_map, sum_calculateFragmentValue]

theorem draftComplete_iff (d : Draft) :
    draftComplete d = true ↔ 0 < d.quantity.getD 0 ∧ d.scheduledDate.isSome = true := by
  cases hq : d.quantity with
  | none => simp [draftComplete, jsTruthyI, hq]
  | some q =>
    simp only [draftComplete, jsTruthyI, hq, Option.getD_some, Bool.and_eq_true,
      bne_iff_ne, ne_eq, decide_eq_true_eq]
    constructor
    · rintro ⟨⟨_, hpos⟩, hd⟩
      exact ⟨hpos, hd⟩
    · rintro ⟨hpos, hd⟩
      exact ⟨⟨by omega, hpos⟩, hd⟩

theorem length_mapWithIndex (f : Nat → α → β) :
    ∀ (n : Nat) (l : List α), (mapWithIndex f n l).length = l.length := by
  intro n l
  induction l generalizing n with
  | nil => rfl
  | cons a as ih => simp [mapWithIndex, ih]

theorem mem_mapWithIndex (f : Nat → α → β) :
    ∀ {n : Nat} {l : List α} {b : β}, b ∈ mapWithIndex f n l →
      ∃ i a, n ≤ i ∧ a ∈ l ∧ b = f i a := by
  intro n l
  induction l generalizing n with
  | nil => intro b h; simp [mapWithIndex] at h
  | cons a as ih =>
    intro b h
    simp only [mapWithIndex, List.mem_cons] at h
    rcases h with h | h
    · exact ⟨n, a, le_refl n, List.mem_cons_self a as, h⟩
    · obtain ⟨i, x, hi, hx, hb⟩ := ih h
      exact ⟨i, x, by omega, List.mem_cons_of_mem a hx, hb⟩

theorem mapWithIndex_congr (f g : Nat → α → β) :
    ∀ (n : Nat) (l : List α), (∀ i a, a ∈ l → f i a = g i a) →
      mapWithIndex f n l = mapWithIndex g n l := by
  intro n l
  induction l generalizing n with
  | nil => intro _; rfl
  | cons a as ih =>
    intro h
    simp only [mapWithIndex]
    rw [h n a (List.mem_cons_self a as), ih (n + 1) fun i x hx => h i x (List.mem_cons_of_mem a hx)]

theorem mapWithIndex_comp (g : β → γ) (k : Nat → α → β) :
    ∀ (n : Nat) (l : List α),
      mapWithIndex (fun i a => g (k i a)) n l = (mapWithIndex k n l).map g := by
  intro n l
  induction l generalizing n with
  | nil => rfl
  | cons a as ih => simp [mapWithIndex, ih]

theorem map_mapWithIndex (g : β → γ) (f : Nat → α → β) (n : Nat) (l : List α) :
    (mapWithIndex f n l).map g = mapWithIndex (fun i a => g (f i a)) n l :=
  (mapWithIndex_comp g f n l).symm

theorem nodup_mapWithIndex (f : Nat → α → β)
    (hf : ∀ i j a b, f i a = f j b → i = j) :
    ∀ (n : Nat) (l : List α), (mapWithIndex f n l).Nodup := by
  intro n l
  induction l generalizing n with
  | nil => exact List.nodup_nil
  | cons a as ih =>
    refine List.Nodup.cons ?_ (ih (n + 1))
    intro hmem
    obtain ⟨i, x, hi, _, hb⟩ := mem_mapWithIndex f hmem
    have := hf n i a x hb
    omega

theorem filterWithIndex_keep_of_lt (idx : Nat) :
    ∀ (l : List α) (n : Nat), idx < n →
      filterWithIndex (fun i _ => i != idx) n l = l := by
  intro l
  induction l with
  | nil => intro n _; rfl
  | cons a as ih =>
    intro n h
    have hne : (n != idx) = true := by simp; omega
    simp [filterWithIndex, hne, ih (n + 1) (by omega)]

theorem filterWithIndex_length_ge (idx : Nat) :
    ∀ (l : List α) (n : Nat),
      l.length - 1 ≤ (filterWithIndex (fun i _ => i != idx) n l).length := by
  intro l
  induction l with
  | nil => intro n; simp [filterWithIndex]
  | cons a as ih =>
    intro n
    by_cases h : n = idx
    · have hbe : (n != idx) = false := by simp [h]
      simp only [filterWithIndex, hbe, if_false, h]
      rw [filterWithIndex_keep_of_lt idx as (idx + 1) (by omega)]
      simp
    · have hbe : (n != idx) = true := by simp [h]
      simp only [filterWithIndex, hbe, if_true, List.length_cons]
      have := ih (n + 1)
      omega

theorem removeFragment_singleton (d : Draft) (i : Nat) :
    removeFragment [d] i = [d] := by
  simp [removeFragment]

theorem removeFragment_ne_nil (drafts : List Draft) (i : Nat) (h : drafts ≠ []) :
    removeFragment drafts i ≠ [] := by
  unfold removeFragment
  split
  · rename_i hlen
    have h1 := filterWithIndex_length_ge i drafts 0
    intro hnil
    rw [hnil] at h1
    simp at h1
    omega
  · exact h

/-! ### Decimal-rendering lemmas: the id templates are injective in their
numeric components. -/

theorem digitsVal_append_singleton (ds : List Nat) (d : Nat) :
    digitsVal (ds ++ [d]) = 10 * digitsVal ds + d := by
  simp [digitsVal, List.foldl_append]

theorem natDigitsAux_val : ∀ (fuel n : Nat), n < fuel →
    digitsVal (natDigitsAux fuel n) = n := by
  intro fuel
  induction fuel with
  | zero => intro n h; omega
  | succ fuel ih =>
    intro n h
    unfold natDigitsAux
    split
    · rename_i h10
      simp [digitsVal]
    · rename_i h10
      rw [digitsVal_append_singleton, ih (n / 10) (by omega)]
      omega

theorem natDigits_val (n : Nat) : digitsVal (natDigits n) = n :=
  natDigitsAux_val (n + 1) n (by omega)

theorem natDigits_injective {m n : Nat} (h : natDigits m = natDigits n) : m = n := by
  rw [← natDigits_val m, ← natDigits_val n, h]

theorem natDigitsAux_lt_ten : ∀ (fuel n : Nat), ∀ d ∈ natDigitsAux fuel n, d < 10 := by
  intro fuel
  induction fuel with
  | zero => intro n d h; simp [natDigitsAux] at h
  | succ fuel ih =>
    intro n d h
    unfold natDigitsAux at h
    split at h
    · rename_i h10
      simp at h
      omega
    · rename_i h10
      simp only [List.mem_append, List.mem_singleton] at h
      rcases h with h | h
      · exact ih (n / 10) d h
      · omega

theorem natDigits_lt_ten (n : Nat) : ∀ d ∈ natDigits n, d < 10 :=
  natDigitsAux_lt_ten (n + 1) n

theorem digitChar_inj : ∀ a, a < 10 → ∀ b, b < 10 → digitChar a = digitChar b → a = b := by
  decide

theorem map_digitChar_inj : ∀ (xs ys : List Nat), (∀ x ∈ xs, x < 10) →
    (∀ y ∈ ys, y < 10) → xs.map digitChar = ys.map digitChar → xs = ys := by
  intro xs
  induction xs with
  | nil =>
    intro ys _ _ h
    cases ys with
    | nil => rfl
    | cons y ys => simp at h
  | cons x xs ih =>
    intro ys hx hy h
    cases ys with
    | nil => simp at h
    | cons y ys =>
      simp only [List.map_cons, List.cons.injEq] at h
      have hx0 := hx x (List.mem_cons_self x xs)
      have hy0 := hy y (List.mem_cons_self y ys)
      rw [digitChar_inj x hx0 y hy0 h.1,
        ih ys (fun a ha => hx a (List.mem_cons_of_mem x ha))
          (fun a ha => hy a (List.mem_cons_of_mem y ha)) h.2]

theorem natToString_injective {m n : Nat} (h : natToString m = natToString n) : m = n := by
  unfold natToString at h
  have hdata : (natDigits m).map digitChar = (natDigits n).map digitChar :=
    congrArg String.data h
  exact natDigits_injective
    (map_digitChar_inj (natDigits m) (natDigits n) (natDigits_lt_ten m) (natDigits_lt_ten n) hdata)

theorem string_data_append (a b : String) : (a ++ b).data = a.data ++ b.data := rfl

theorem string_eq_of_data_eq {a b : String} (h : a.data = b.data) : a = b := by
  cases a
  cases b
  exact congrArg String.mk h

theorem genId_inj_key (oid : String) (t : Nat) {k1 k2 : Nat}
    (h : genId oid k1 t = genId oid k2 t) : k1 = k2 := by
  unfold genId at h
  have hd := congrArg String.data h
  simp only [string_data_append, List.append_assoc] at hd
  have h1 := List.append_cancel_left hd
  have h2 := List.append_cancel_left h1
  have h3 := List.append_cancel_right h2
  exact natToString_injective (string_eq_of_data_eq h3)

theorem splitId_inj_index (oid : String) (t : Nat) {i1 i2 : Nat}
    (h : OrderSplitDialog.splitId oid t i1 = OrderSplitDialog.splitId oid t i2) : i1 = i2 := by
  unfold OrderSplitDialog.splitId at h
  have hd := congrArg String.data h
  simp only [string_data_append, List.append_assoc] at hd
  have h1 := List.append_cancel_left hd
  have h2 := List.append_cancel_left h1
  have h3 := List.append_cancel_left h2
  have h4 := List.append_cancel_left h3
  exact natToString_injective (string_eq_of_data_eq h4)

theorem formA_isValid_iff (drafts : List Draft) (T : Int) :
    FormA.isValid drafts T = true ↔
      ((drafts.map fun d => d.quantity.getD 0).sum = T ∧
        ∀ d ∈ drafts, 0 < d.quantity.getD 0 ∧ d.scheduledDate.isSome = true) := by
  unfold FormA.isValid
  rw [getTotalFragmentQuantity_eq_sum]
  simp only [Bool.and_eq_true, beq_iff_eq, List.all_eq_true, draftComplete_iff]

theorem formB_isValid_iff (drafts : List Draft) (T : Int) :
    FormB.isValid drafts T = true ↔
      (0 < (drafts.map fun d => d.quantity.getD 0).sum ∧
        (drafts.map fun d => d.quantity.getD 0).sum ≤ T ∧
        ∀ d ∈ drafts, 0 < d.quantity.getD 0 ∧ d.scheduledDate.isSome = true) := by
  unfold FormB.isValid
  rw [getTotalFragmentQuantity_eq_sum]
  simp only [Bool.and_eq_true, decide_eq_true_eq, List.all_eq_true, draftComplete_iff,
    and_assoc]

theorem foldl_removeFragment_ne_nil (idxs : List Nat) :
    ∀ drafts : List Draft, drafts ≠ [] → idxs.foldl removeFragment drafts ≠ [] := by
  induction idxs with
  | nil => intro drafts h; simpa using h
  | cons j js ih => intro drafts h; exact ih _ (removeFragment_ne_nil drafts j h)

/-! ### Claim theorems -/

/-- C1: For every product with total quantity T and total value V and every
draft quantity q, the computed fragment value equals q / T * V, and it
equals 0 when T = 0; this holds both for the forms calculateFragmentValue
and for the per-fragment value the dialog computes at save (where each
saved fragment has a positive quantity q at most the product total T). -/
theorem c1_proportional_value (T : Int) (V : ℚ) (q : Int) (order : Order)
    (qs : List (String × Int)) (clock : Nat → Nat) (l : List SplitFragment)
    (hsave : (OrderSplitDialog.handleSplit order qs clock).1 = SplitOutcome.saved l) :
    calculateFragmentValue T V q = (q : ℚ) / (T : ℚ) * V ∧
    (T = 0 → calculateFragmentValue T V q = 0) ∧
    ∀ f ∈ l, ∃ p ∈ order.products,
      0 < f.quantity ∧ f.quantity ≤ p.quantity ∧
      f.quantity = OrderSplitDialog.lookupQ qs p.id ∧
      f.value = (f.quantity : ℚ) / (p.quantity : ℚ) * p.total_price := by
  refine ⟨calculateFragmentValue_eq T V q, fun h => by simp [calculateFragmentValue, h], ?_⟩
  unfold OrderSplitDialog.handleSplit at hsave
  by_cases hq : qs.any (fun p => decide (0 < p.2)) = true
  · rw [if_neg (by simp [hq])] at hsave
    by_cases he : order.products.any
        (fun p => decide (p.quantity < OrderSplitDialog.lookupQ qs p.id)) = true
    · rw [if_pos he] at hsave
      simp at hsave
    · rw [if_neg he] at hsave
      simp only [SplitOutcome.saved.injEq] at hsave
      intro f hf
      rw [← hsave] at hf
      obtain ⟨i, p, _, hpmem, hfe⟩ := mem_mapWithIndex _ hf
      have hpfil := List.mem_filter.mp hpmem
      have hppos : 0 < OrderSplitDialog.lookupQ qs p.id := by
        have := hpfil.2
        simpa using this
      have hple : OrderSplitDialog.lookupQ qs p.id ≤ p.quantity := by
        rw [List.any_eq_true] at he
        push_neg at he
        have := he p hpfil.1
        simpa using this
      refine ⟨p, hpfil.1, ?_⟩
      subst hfe
      refine ⟨hppos, hple, rfl, ?_⟩
      show (p.total_price / (p.quantity : ℚ)) * ((OrderSplitDialog.lookupQ qs p.id : Int) : ℚ) =
        ((OrderSplitDialog.lookupQ qs p.id : Int) : ℚ) / (p.quantity : ℚ) * p.total_price
      ring
  · rw [if_pos (by simp [hq])] at hsave
    simp at hsave

/-- Witness for C1 at a concrete input, discharging the dialog-save
hypothesis at a concrete save. -/
theorem c1_witness :
    calculateFragmentValue 4 20 1 = ((1 : Int) : ℚ) / ((4 : Int) : ℚ) * 20 :=
  (c1_proportional_value 4 20 1
    { id := "O", products := [{ id := "p", quantity := 2, total_price := 10 }] }
    [("p", 1)] (fun _ => 5)
    [{ id := OrderSplitDialog.splitId "O" 5 0, order_id := "O", product_id := "p", product_name := "", size := "", color := "", fragment_number := 1, quantity := 1, scheduled_date := 5, status := "pending", progress := 0, value := (10 : ℚ) / ((2 : Int) : ℚ) * ((1 : Int) : ℚ) }]
    rfl).1

/-- C2: under the strict policy, isValid is true iff the draft quantities
sum exactly to the product total and every draft has a positive quantity
and a scheduled date. -/
theorem c2_strict_validity (drafts : List Draft) (T : Int) :
    FormA.isValid drafts T = true ↔
      ((drafts.map fun d => d.quantity.getD 0).sum = T ∧
        ∀ d ∈ drafts, 0 < d.quantity.getD 0 ∧ d.scheduledDate.isSome = true) :=
  formA_isValid_iff drafts T

/-- C3: under the partial-allowed policy, isValid is true iff the draft
quantities sum to something positive and at most the product total and
every draft has a positive quantity and a scheduled date. -/
theorem c3_partial_validity (drafts : List Draft) (T : Int) :
    FormB.isValid drafts T = true ↔
      (0 < (drafts.map fun d => d.quantity.getD 0).sum ∧
        (drafts.map fun d => d.quantity.getD 0).sum ≤ T ∧
        ∀ d ∈ drafts, 0 < d.quantity.getD 0 ∧ d.scheduledDate.isSome = true) :=
  formB_isValid_iff drafts T

/-- C5: removing from a one-element draft list is a no-op, and no sequence
of removeFragment operations empties a non-empty draft list. -/
theorem c5_draft_count_floor (d : Draft) (i : Nat) (drafts : List Draft)
    (idxs : List Nat) (h : drafts ≠ []) :
    removeFragment [d] i = [d] ∧ idxs.foldl removeFragment drafts ≠ [] :=
  ⟨removeFragment_singleton d i, foldl_removeFragment_ne_nil idxs drafts h⟩

/-- Witness for C5 at a concrete draft list and removal sequence. -/
theorem c5_witness :
    removeFragment [({} : Draft)] 0 = [({} : Draft)] ∧
    ([0, 0] : List Nat).foldl removeFragment [({} : Draft)] ≠ [] :=
  c5_draft_count_floor {} 0 [{}] [0, 0] (by simp)

/-- C4: whenever validation fails, each save handler emits its user-facing
error message naming the failed condition and returns an error outcome, so
the save callback is never invoked; the dialog also leaves its quantities
state unchanged, and the form handlers mutate no state at all. -/
theorem c4_invalid_save_aborts
    (oid : String) (products : List OrderProduct) (pid : String)
    (initF : List OrderFragment) (draftsA draftsB : List Draft)
    (now : Int) (clock : Nat → Nat)
    (order : Order) (qs1 qs2 : List (String × Int)) (clockD : Nat → Nat)
    (hA : FormA.isValid draftsA (totalQuantityOf products pid) = false)
    (hB : FormB.isValid draftsB (totalQuantityOf products pid) = false)
    (hq : qs1.any (fun p => decide (0 < p.2)) = false)
    (hq2 : qs2.any (fun p => decide (0 < p.2)) = true)
    (he : order.products.any
      (fun p => decide (p.quantity < OrderSplitDialog.lookupQ qs2 p.id)) = true) :
    FormA.handleSave oid products pid initF draftsA now clock
        = SaveOutcome.error "Erro de Validação"
            (FormA.errMsg draftsA (totalQuantityOf products pid)) ∧
    FormB.handleSave oid products pid initF draftsB now clock
        = SaveOutcome.error "Erro de Validação"
            (FormB.errMsg draftsB (totalQuantityOf products pid)) ∧
    (getTotalFragmentQuantity draftsB = 0 →
      FormB.errMsg draftsB (totalQuantityOf products pid) =
        "Você deve fragmentar pelo menos 1 unidade.") ∧
    (getTotalFragmentQuantity draftsB ≠ 0 →
      totalQuantityOf products pid < getTotalFragmentQuantity draftsB →
      FormB.errMsg draftsB (totalQuantityOf products pid) =
        "A quantidade total fragmentada (" ++
          intToString (getTotalFragmentQuantity draftsB) ++
          ") não pode ser maior que a quantidade total do produto (" ++
          intToString (totalQuantityOf products pid) ++ ").") ∧
    (getTotalFragmentQuantity draftsB ≠ 0 →
      ¬ (totalQuantityOf products pid < getTotalFragmentQuantity draftsB) →
      FormB.errMsg draftsB (totalQuantityOf products pid) =
        "Todos os campos obrigatórios devem ser preenchidos.") ∧
    OrderSplitDialog.handleSplit order qs1 clockD =
      (SplitOutcome.error "Por favor, especifique a quantidade para pelo menos um produto",
        qs1) ∧
    OrderSplitDialog.handleSplit order qs2 clockD =
      (SplitOutcome.error
          "A quantidade especificada não pode ser maior que a quantidade do produto",
        qs2) := by
  refine ⟨?_, ?_, ?_, ?_, ?_, ?_, ?_⟩
  · simp [FormA.handleSave, hA]
  · simp [FormB.handleSave, hB]
  · intro h0
    simp [FormB.errMsg, h0]
  · intro h0 hgt
    rw [FormB.errMsg]
    simp only [if_neg h0, if_pos hgt]
  · intro h0 hle
    rw [FormB.errMsg]
    simp only [if_neg h0, if_neg hle]
  · simp [OrderSplitDialog.handleSplit, hq]
  · simp [OrderSplitDialog.handleSplit, hq2, he]

/-- Witness for C4 at concrete invalid states of all three components. -/
theorem c4_witness :
    FormA.handleSave "O" [] "" [] [{}] 0 (fun _ => 5)
        = SaveOutcome.error "Erro de Validação" (FormA.errMsg [{}] (totalQuantityOf [] "")) ∧
    FormB.errMsg [{}] (totalQuantityOf [] "") = "Você deve fragmentar pelo menos 1 unidade." ∧
    OrderSplitDialog.handleSplit { id := "O", products := [{ id := "p", quantity := 2 }] }
        [] (fun _ => 5)
      = (SplitOutcome.error "Por favor, especifique a quantidade para pelo menos um produto",
          []) ∧
    OrderSplitDialog.handleSplit { id := "O", products := [{ id := "p", quantity := 2 }] }
        [("p", 5)] (fun _ => 5)
      = (SplitOutcome.error
            "A quantidade especificada não pode ser maior que a quantidade do produto",
          [("p", 5)]) := by
  have h := c4_invalid_save_aborts "O" [] "" [] [{}] [{}] 0 (fun _ => 5)
    { id := "O", products := [{ id := "p", quantity := 2 }] } [] [("p", 5)] (fun _ => 5)
    (by decide) (by decide) (by decide) (by decide) (by decide)
  exact ⟨h.1, h.2.2.1 (by decide), h.2.2.2.2.2.1, h.2.2.2.2.2.2⟩

/-- C6: on a valid save both form variants hand the callback exactly the
initial fragments of other products (a sublist of the initial list, hence
unchanged and in their original relative order, containing precisely the
fragments whose product id differs) followed by the finalized drafts of
the selected product, with no deduplication: the length is the sum of both
parts. -/
theorem c6_save_concatenation
    (oid : String) (products : List OrderProduct) (pid : String)
    (initF : List OrderFragment) (draftsA draftsB : List Draft)
    (now : Int) (clock : Nat → Nat)
    (hA : FormA.isValid draftsA (totalQuantityOf products pid) = true)
    (hB : FormB.isValid draftsB (totalQuantityOf products pid) = true) :
    FormA.handleSave oid products pid initF draftsA now clock
      = SaveOutcome.saved (initF.filter (fun f => f.productId != pid) ++
          mapWithIndex (FormA.finalize oid pid (totalQuantityOf products pid)
            (totalValueOf products pid) now clock) 0 draftsA) ∧
    FormB.handleSave oid products pid initF draftsB now clock
      = SaveOutcome.saved (initF.filter (fun f => f.productId != pid) ++
          mapWithIndex (FormB.finalize oid pid (selectedProductOf products pid)
            (totalQuantityOf products pid) (totalValueOf products pid) now clock) 0 draftsB) ∧
    (initF.filter (fun f => f.productId != pid)).Sublist initF ∧
    (∀ f ∈ initF, f.productId ≠ pid → f ∈ initF.filter (fun f => f.productId != pid)) ∧
    (∀ f ∈ initF.filter (fun f => f.productId != pid), f.productId ≠ pid) ∧
    (∀ g ∈ mapWithIndex (FormA.finalize oid pid (totalQuantityOf products pid)
        (totalValueOf products pid) now clock) 0 draftsA,
      g.productId = pid ∧ g.orderId = oid) ∧
    (∀ g ∈ mapWithIndex (FormB.finalize oid pid (selectedProductOf products pid)
        (totalQuantityOf products pid) (totalValueOf products pid) now clock) 0 draftsB,
      g.productId = pid ∧ g.orderId = oid) ∧
    ((initF.filter (fun f => f.productId != pid)).length +
        (mapWithIndex (FormA.finalize oid pid (totalQuantityOf products pid)
          (totalValueOf products pid) now clock) 0 draftsA).length
      = (initF.filter (fun f => f.productId != pid)).length + draftsA.length) := by
  refine ⟨?_, ?_, List.filter_sublist initF, ?_, ?_, ?_, ?_, ?_⟩
  · simp [FormA.handleSave, hA]
  · simp [FormB.handleSave, hB]
  · intro f hf hne
    refine List.mem_filter.mpr ⟨hf, ?_⟩
    simpa using hne
  · intro f hf
    have h2 := (List.mem_filter.mp hf).2
    simpa using h2
  · intro g hg
    obtain ⟨i, d, _, _, hge⟩ := mem_mapWithIndex _ hg
    subst hge
    exact ⟨rfl, rfl⟩
  · intro g hg
    obtain ⟨i, d, _, _, hge⟩ := mem_mapWithIndex _ hg
    subst hge
    exact ⟨rfl, rfl⟩
  · rw [length_mapWithIndex]

/-- Witness for C6 at a concrete valid save with one other-product
fragment. -/
theorem c6_witness :
    FormA.handleSave "O" [{ id := "p", quantity := 2 }] "p"
        [{ id := "f1", orderId := "O", productId := "q", fragmentNumber := 1, quantity := 1, scheduledDate := 0, status := "pending", progress := 0, value := 0 }]
        [{ quantity := some 2, scheduledDate := some 0 }] 0 (fun _ => 5)
      = SaveOutcome.saved
          (([{ id := "f1", orderId := "O", productId := "q", fragmentNumber := 1, quantity := 1, scheduledDate := 0, status := "pending", progress := 0, value := 0 }] :
              List OrderFragment).filter (fun f => f.productId != "p") ++
            mapWithIndex (FormA.finalize "O" "p"
              (totalQuantityOf [{ id := "p", quantity := 2 }] "p")
              (totalValueOf [{ id := "p", quantity := 2 }] "p") 0 (fun _ => 5)) 0
              [{ quantity := some 2, scheduledDate := some 0 }]) ∧
    ∀ f ∈ ([{ id := "f1", orderId := "O", productId := "q", fragmentNumber := 1, quantity := 1, scheduledDate := 0, status := "pending", progress := 0, value := 0 }] :
        List OrderFragment), f.productId ≠ "p" →
      f ∈ ([{ id := "f1", orderId := "O", productId := "q", fragmentNumber := 1, quantity := 1, scheduledDate := 0, status := "pending", progress := 0, value := 0 }] :
        List OrderFragment).filter (fun f => f.productId != "p") := by
  have h := c6_save_concatenation "O" [{ id := "p", quantity := 2 }] "p"
    [{ id := "f1", orderId := "O", productId := "q", fragmentNumber := 1, quantity := 1, scheduledDate := 0, status := "pending", progress := 0, value := 0 }]
    [{ quantity := some 2, scheduledDate := some 0 }]
    [{ quantity := some 2, scheduledDate := some 0 }] 0 (fun _ => 5)
    (by decide) (by decide)
  exact ⟨h.1, h.2.2.2.1⟩

/-- C10 (amended): the fragment value computation is additive in quantity:
the total fragmented value equals calculateFragmentValue of the total
quantity; hence under the strict policy with a nonempty draft list the
total fragmented value equals the product total value, and under the
partial policy with a nonnegative total value it never exceeds it. -/
theorem c10_value_additivity (drafts : List Draft) (T : Int) (V : ℚ) :
    getTotalFragmentValue drafts T V =
      calculateFragmentValue T V (getTotalFragmentQuantity drafts) ∧
    (FormA.isValid drafts T = true → drafts ≠ [] →
      getTotalFragmentValue drafts T V = V) ∧
    (FormB.isValid drafts T = true → 0 ≤ V →
      getTotalFragmentValue drafts T V ≤ V) := by
  refine ⟨getTotalFragmentValue_eq drafts T V, ?_, ?_⟩
  · intro hv hne
    obtain ⟨hsum, hall⟩ := (formA_isValid_iff drafts T).mp hv
    have hpos : 0 < (drafts.map fun d => d.quantity.getD 0).sum := by
      apply List.sum_pos
      · intro x hx
        obtain ⟨d, hd, hdx⟩ := List.mem_map.mp hx
        rw [← hdx]
        exact (hall d hd).1
      · simpa using hne
    have hT : T ≠ 0 := by omega
    rw [getTotalFragmentValue_eq, getTotalFragmentQuantity_eq_sum, hsum,
      calculateFragmentValue_eq, div_self (by exact_mod_cast hT), one_mul]
  · intro hv hV
    obtain ⟨hpos, hle, _⟩ := (formB_isValid_iff drafts T).mp hv
    have hT : 0 < T := by omega
    rw [getTotalFragmentValue_eq, getTotalFragmentQuantity_eq_sum, calculateFragmentValue_eq]
    generalize hSdef : (drafts.map fun d => d.quantity.getD 0).sum = S at hpos hle ⊢
    have hdiv : (S : ℚ) / (T : ℚ) ≤ 1 := by
      rw [div_le_one (by exact_mod_cast hT)]
      exact_mod_cast hle
    calc (S : ℚ) / (T : ℚ) * V
        ≤ 1 * V := mul_le_mul_of_nonneg_right hdiv hV
      _ = V := one_mul V

/-- Counterexample for C10 as stated: with an empty draft list and product
total quantity 0 the strict policy accepts, yet the total fragmented value
0 differs from the product total value 1; and with a negative total value
the partial policy accepts a half split whose value -1 exceeds the total
-2. -/
theorem c10_counterexample :
    FormA.isValid [] 0 = true ∧
    getTotalFragmentValue [] 0 1 = 0 ∧ ((0 : ℚ) ≠ 1) ∧
    FormB.isValid [{ quantity := some 1, scheduledDate := some 0 }] 2 = true ∧
    getTotalFragmentValue [{ quantity := some 1, scheduledDate := some 0 }] 2 (-2) = -1 ∧
    ¬ ((-1 : ℚ) ≤ -2) := by
  refine ⟨by decide, rfl, by norm_num, by decide, ?_, by norm_num⟩
  have h : getTotalFragmentValue [{ quantity := some 1, scheduledDate := some 0 }] 2 (-2) =
      calculateFragmentValue 2 (-2) 1 := by
    simp [getTotalFragmentValue, jsOrI]
  rw [h, calculateFragmentValue_eq]
  norm_num

/-- Witness for C10 at a concrete draft list valid under both policies. -/
theorem c10_witness :
    getTotalFragmentValue [{ quantity := some 1, scheduledDate := some 0 }] 1 7 =
      calculateFragmentValue 1 7
        (getTotalFragmentQuantity [{ quantity := some 1, scheduledDate := some 0 }]) ∧
    getTotalFragmentValue [{ quantity := some 1, scheduledDate := some 0 }] 1 7 = 7 ∧
    getTotalFragmentValue [{ quantity := some 1, scheduledDate := some 0 }] 1 7 ≤ 7 :=
  ⟨(c10_value_additivity [{ quantity := some 1, scheduledDate := some 0 }] 1 7).1,
   (c10_value_additivity [{ quantity := some 1, scheduledDate := some 0 }] 1 7).2.1
     (by decide) (by simp),
   (c10_value_additivity [{ quantity := some 1, scheduledDate := some 0 }] 1 7).2.2
     (by decide) (by norm_num)⟩

/-- C7 (amended): at save time every draft without an identifier receives
`(orderId)-frag-(key)-(time)` where key is its fragment number (position
plus one when absent), and every finalized fragment is stamped with the
owning order and product id and its value recomputed by the proportional
formula.  The finalized identifiers are pairwise distinct whenever the
drafts carry no prior ids, the clock readings agree within the save, and
the drafts keys are pairwise distinct; the dialog ids, which end in the
fragments position, are always pairwise distinct within one save taken at
one clock reading. -/
theorem c7_id_assignment
    (oid pid : String) (T : Int) (V : ℚ) (now : Int) (clock : Nat → Nat)
    (drafts : List Draft)
    (order : Order) (qs : List (String × Int)) (clockD : Nat → Nat)
    (l : List SplitFragment)
    (hids : ∀ d ∈ drafts, d.id = none)
    (hclk : ∀ i, clock i = clock 0)
    (hkeys : (keysOf drafts).Nodup)
    (hsave : (OrderSplitDialog.handleSplit order qs clockD).1 = SplitOutcome.saved l)
    (hclkD : ∀ i, clockD i = clockD 0) :
    (∀ i d, d.id = none →
      (FormA.finalize oid pid T V now clock i d).id =
        genId oid (jsOrNat d.fragmentNumber (i + 1)) (clock i)) ∧
    (∀ g ∈ mapWithIndex (FormA.finalize oid pid T V now clock) 0 drafts,
      g.orderId = oid ∧ g.productId = pid ∧
        g.value = calculateFragmentValue T V g.quantity) ∧
    ((mapWithIndex (FormA.finalize oid pid T V now clock) 0 drafts).map
      (fun g => g.id)).Nodup ∧
    (l.map (fun f => f.id)).Nodup := by
  refine ⟨?_, ?_, ?_, ?_⟩
  · intro i d hd
    simp [FormA.finalize, hd, jsOrS]
  · intro g hg
    obtain ⟨i, d, _, _, hge⟩ := mem_mapWithIndex _ hg
    subst hge
    exact ⟨rfl, rfl, rfl⟩
  · rw [map_mapWithIndex]
    rw [mapWithIndex_congr
      (fun i d => (FormA.finalize oid pid T V now clock i d).id)
      (fun i d => genId oid (jsOrNat d.fragmentNumber (i + 1)) (clock 0)) 0 drafts
      (fun i d hd => by
        simp only [FormA.finalize, hids d hd, jsOrS]
        rw [hclk i])]
    rw [show mapWithIndex (fun i d => genId oid (jsOrNat d.fragmentNumber (i + 1)) (clock 0))
        0 drafts = (keysOf drafts).map (fun k => genId oid k (clock 0)) from
      mapWithIndex_comp (fun k => genId oid k (clock 0))
        (fun i d => jsOrNat d.fragmentNumber (i + 1)) 0 drafts]
    exact hkeys.map (fun k1 k2 hk => genId_inj_key oid (clock 0) hk)
  · unfold OrderSplitDialog.handleSplit at hsave
    by_cases hq : qs.any (fun p => decide (0 < p.2)) = true
    · rw [if_neg (by simp [hq])] at hsave
      by_cases he : order.products.any
          (fun p => decide (p.quantity < OrderSplitDialog.lookupQ qs p.id)) = true
      · rw [if_pos he] at hsave
        simp at hsave
      · rw [if_neg he] at hsave
        simp only [SplitOutcome.saved.injEq] at hsave
        rw [← hsave, map_mapWithIndex]
        rw [mapWithIndex_congr _
          (fun i _ => OrderSplitDialog.splitId order.id (clockD 0) i) 0
          (order.products.filter (fun p => decide (0 < OrderSplitDialog.lookupQ qs p.id)))
          (fun i p _ => by
            show OrderSplitDialog.splitId order.id (clockD i) i = _
            rw [hclkD i])]
        exact nodup_mapWithIndex _
          (fun i j a b hab => splitId_inj_index order.id (clockD 0) hab) 0 _
    · rw [if_pos (by simp [hq])] at hsave
      simp at hsave

/-- Witness for C7 at concrete inputs: two id-less drafts with distinct
fragment numbers, and a concrete dialog save. -/
theorem c7_witness :
    ((mapWithIndex (FormA.finalize "O" "p" 2 0 0 (fun _ => 5)) 0
        [{ fragmentNumber := some 1, quantity := some 1, scheduledDate := some 0 },
          { fragmentNumber := some 2, quantity := some 1, scheduledDate := some 0 }]).map
      (fun g => g.id)).Nodup ∧
    (([({ id := OrderSplitDialog.splitId "W" 5 0, order_id := "W", product_id := "w", product_name := "", size := "", color := "", fragment_number := 1, quantity := 1, scheduled_date := 5, status := "pending", progress := 0, value := (10 : ℚ) / ((2 : Int) : ℚ) * ((1 : Int) : ℚ) } : SplitFragment)]).map
      (fun f => f.id)).Nodup := by
  have h := c7_id_assignment "O" "p" 2 0 0 (fun _ => 5)
    [{ fragmentNumber := some 1, quantity := some 1, scheduledDate := some 0 },
      { fragmentNumber := some 2, quantity := some 1, scheduledDate := some 0 }]
    { id := "W", products := [{ id := "w", quantity := 2, total_price := 10 }] }
    [("w", 1)] (fun _ => 5)
    [{ id := OrderSplitDialog.splitId "W" 5 0, order_id := "W", product_id := "w", product_name := "", size := "", color := "", fragment_number := 1, quantity := 1, scheduled_date := 5, status := "pending", progress := 0, value := (10 : ℚ) / ((2 : Int) : ℚ) * ((1 : Int) : ℚ) }]
    (by decide) (fun _ => rfl) (by decide) rfl (fun _ => rfl)
  exact ⟨h.2.2.1, h.2.2.2⟩

/-- Counterexample for C7 as stated: after adding, removing the first
draft and adding again, two drafts share fragment number 2; saving with
the clock reading 7 throughout generates the same identifier for both
saved fragments, so the identifiers of a session are not pairwise
distinct. -/
theorem c7_counterexample :
    FormA.handleSave "O" [{ id := "P", quantity := 2 }] "P" []
        (FormA.runSession [{ id := "P", quantity := 2 }] [] 0
          [FormA.Event.add, FormA.Event.remove 0, FormA.Event.add]).fragments
        0 (fun _ => 7)
      = SaveOutcome.saved
          [{ id := genId "O" 2 7, orderId := "O", productId := "P", fragmentNumber := 2, quantity := 1, scheduledDate := 86400000, status := "pending", progress := 0, value := calculateFragmentValue 2 0 1 },
            { id := genId "O" 2 7, orderId := "O", productId := "P", fragmentNumber := 2, quantity := 1, scheduledDate := 172800000, status := "pending", progress := 0, value := calculateFragmentValue 2 0 1 }] ∧
    ¬ (([{ id := genId "O" 2 7, orderId := "O", productId := "P", fragmentNumber := 2, quantity := 1, scheduledDate := 86400000, status := "pending", progress := 0, value := calculateFragmentValue 2 0 1 },
          { id := genId "O" 2 7, orderId := "O", productId := "P", fragmentNumber := 2, quantity := 1, scheduledDate := 172800000, status := "pending", progress := 0, value := calculateFragmentValue 2 0 1 }] :
        List OrderFragment).map (fun g => g.id)).Nodup := by
  constructor
  · rfl
  · intro h
    simp at h

/-- C8 (amended): both addFragment variants append exactly one draft with
the next sequence number and quantity 1, dated one day after the last
drafts scheduled date (the current instant when there is none); the second
variant additionally clamps the date so it does not precede the start of
today, while the first variant applies no clamp. -/
theorem c8_add_draft (pid : String) (now todayStart : Int) (drafts : List Draft)
    (h : todayStart ≤ now) :
    FormA.addFragment now drafts
      = drafts ++ [{ fragmentNumber := some (drafts.length + 1), quantity := some 1, scheduledDate := some (specNextDate now drafts), status := some "pending", progress := some 0 }] ∧
    FormB.addFragment pid now todayStart drafts
      = drafts ++ [{ fragmentNumber := some (drafts.length + 1), quantity := some 1, scheduledDate := some (max todayStart (specNextDate now drafts)), status := some "pending", progress := some 0, productId := some pid }] ∧
    todayStart ≤ max todayStart (specNextDate now drafts) ∧
    ((drafts.getLast?).bind (fun d => d.scheduledDate) = none →
      specNextDate now drafts = now ∧ max todayStart (specNextDate now drafts) = now) := by
  have hnext : ∀ m : Int,
      (match drafts.getLast? with
        | some lastFragment =>
          match lastFragment.scheduledDate with
          | some dte => dte + dayMs
          | none => m
        | none => m) = specNextDate m drafts := by
    intro m
    unfold specNextDate
    cases drafts.getLast? with
    | none => rfl
    | some lastFragment => cases lastFragment.scheduledDate <;> rfl
  refine ⟨?_, ?_, le_max_left _ _, ?_⟩
  · unfold FormA.addFragment
    rw [hnext now]
  · unfold FormB.addFragment
    rw [hnext now]
    dsimp only
    by_cases hlt : specNextDate now drafts < todayStart
    · rw [if_pos hlt, max_eq_left (le_of_lt hlt)]
    · rw [if_neg hlt, max_eq_right (le_of_not_lt hlt)]
  · intro hnone
    have : specNextDate now drafts = now := by
      unfold specNextDate
      rw [hnone]
    exact ⟨this, by rw [this, max_eq_right h]⟩

/-- Witness for C8 on the empty draft list with the clock past the start
of today. -/
theorem c8_witness :
    FormA.addFragment 5 []
      = [{ fragmentNumber := some 1, quantity := some 1, scheduledDate := some (specNextDate 5 []), status := some "pending", progress := some 0 }] ∧
    (3 : Int) ≤ max 3 (specNextDate 5 []) ∧
    (specNextDate 5 ([] : List Draft) = 5 ∧ max (3 : Int) (specNextDate 5 []) = 5) := by
  have h := c8_add_draft "P" 5 3 [] (by norm_num)
  exact ⟨h.1, h.2.2.1, h.2.2.2 rfl⟩

/-- Counterexample for C8 as stated: in the first variant, with a last
draft dated at time 0 and the present at time 172800000 (the start of day
two), the appended draft is dated 86400000, one day after the last draft
but strictly before today: no clamping occurs. -/
theorem c8_counterexample :
    (FormA.addFragment 172800000 [{ scheduledDate := some 0 }]).getLast?
      = some { fragmentNumber := some 2, quantity := some 1, scheduledDate := some 86400000, status := some "pending", progress := some 0 } ∧
    (86400000 : Int) < 172800000 := by
  exact ⟨rfl, by norm_num⟩

/-- C9 (amended): fragments of other products that are present in the
initial fragment list are retained through any editing session: whenever
the final save succeeds they appear in the list handed to the save
callback.  (Drafts newly entered for a product and not saved before
switching products are discarded by the re-seeding effect.) -/
theorem c9_initial_fragments_retained
    (products : List OrderProduct) (initF : List OrderFragment) (now : Int)
    (events : List FormA.Event) (oid : String) (clock : Nat → Nat)
    (l : List OrderFragment)
    (hsave : FormA.handleSave oid products
        (FormA.runSession products initF now events).selectedProductId initF
        (FormA.runSession products initF now events).fragments now clock
      = SaveOutcome.saved l) :
    ∀ f ∈ initF,
      f.productId ≠ (FormA.runSession products initF now events).selectedProductId →
        f ∈ l := by
  unfold FormA.handleSave at hsave
  by_cases hv : FormA.isValid (FormA.runSession products initF now events).fragments
      (totalQuantityOf products (FormA.runSession products initF now events).selectedProductId)
      = true
  · rw [if_neg (by simp [hv])] at hsave
    simp only [SaveOutcome.saved.injEq] at hsave
    intro f hf hne
    rw [← hsave]
    apply List.mem_append_left
    exact List.mem_filter.mpr ⟨hf, by simpa using hne⟩
  · rw [if_pos (by simpa using hv)] at hsave
    simp at hsave

/-- Witness for C9 at a concrete session whose save succeeds with one
other-product fragment in the initial list. -/
theorem c9_witness :
    ({ id := "f1", orderId := "O", productId := "q", fragmentNumber := 1, quantity := 1, scheduledDate := 0, status := "pending", progress := 0, value := 0 } : OrderFragment)
      ∈ [({ id := "f1", orderId := "O", productId := "q", fragmentNumber := 1, quantity := 1, scheduledDate := 0, status := "pending", progress := 0, value := 0 } : OrderFragment),
          { id := genId "O" 1 5, orderId := "O", productId := "p", fragmentNumber := 1, quantity := 1, scheduledDate := 0, status := "pending", progress := 0, value := calculateFragmentValue 1 0 1 }] :=
  c9_initial_fragments_retained [{ id := "p", quantity := 1 }]
    [{ id := "f1", orderId := "O", productId := "q", fragmentNumber := 1, quantity := 1, scheduledDate := 0, status := "pending", progress := 0, value := 0 }]
    0 [] "O" (fun _ => 5)
    [{ id := "f1", orderId := "O", productId := "q", fragmentNumber := 1, quantity := 1, scheduledDate := 0, status := "pending", progress := 0, value := 0 },
      { id := genId "O" 1 5, orderId := "O", productId := "p", fragmentNumber := 1, quantity := 1, scheduledDate := 0, status := "pending", progress := 0, value := calculateFragmentValue 1 0 1 }]
    rfl
    { id := "f1", orderId := "O", productId := "q", fragmentNumber := 1, quantity := 1, scheduledDate := 0, status := "pending", progress := 0, value := 0 }
    (List.mem_singleton.mpr rfl)
    (by decide)

/-- Counterexample for C9 as stated: the user sets the P1 draft quantity
to 2, switches to P2 and completes a valid save; the saved list contains
no fragment for P1, so the drafts entered for P1 were not retained. -/
theorem c9_counterexample :
    (FormA.runSession [{ id := "P1", quantity := 2 }, { id := "P2", quantity := 2 }] [] 0
        [FormA.Event.setQuantity 0 2]).fragments
      = [{ fragmentNumber := some 1, quantity := some 2, scheduledDate := some 0, status := some "pending", progress := some 0, productId := some "P1" }] ∧
    FormA.handleSave "O" [{ id := "P1", quantity := 2 }, { id := "P2", quantity := 2 }]
        (FormA.runSession [{ id := "P1", quantity := 2 }, { id := "P2", quantity := 2 }] [] 0
          [FormA.Event.setQuantity 0 2, FormA.Event.selectProduct "P2",
            FormA.Event.setQuantity 0 2]).selectedProductId []
        (FormA.runSession [{ id := "P1", quantity := 2 }, { id := "P2", quantity := 2 }] [] 0
          [FormA.Event.setQuantity 0 2, FormA.Event.selectProduct "P2",
            FormA.Event.setQuantity 0 2]).fragments
        0 (fun _ => 5)
      = SaveOutcome.saved
          [{ id := genId "O" 1 5, orderId := "O", productId := "P2", fragmentNumber := 1, quantity := 2, scheduledDate := some 0 |>.getD 0, status := "pending", progress := 0, value := calculateFragmentValue 2 0 2 }] ∧
    ∀ f ∈ [({ id := genId "O" 1 5, orderId := "O", productId := "P2", fragmentNumber := 1, quantity := 2, scheduledDate := some 0 |>.getD 0, status := "pending", progress := 0, value := calculateFragmentValue 2 0 2 } : OrderFragment)],
      f.productId ≠ "P1" := by
  refine ⟨rfl, rfl, ?_⟩
  intro f hf
  rw [List.mem_singleton.mp hf]
  decide

end SysBBox
